import Mathlib

/-
Verification development for the shell provider in src/Shell.c
(psl-omi-provider).  The C code is shallowly embedded:

* bytes are `Nat`, buffers are `List Nat`; a `DecodeBuffer` keeps the
  written bytes (`buffer`, so `bufferUsed = buffer.length`) together with
  the allocated size `bufferLength`;
* `malloc` and the workspace-size queries are assumed to succeed (the
  allocation-failure paths return SERVER_LIMITS_EXCEEDED and are not the
  subject of any claim);
* reads of allocated-but-unwritten (or out-of-range) memory, which the C
  performs in `CalculateTotalUncompressedSize` and in the per-chunk
  `memcpy`, are modelled as reading the byte 0 (`List.getD`, `readExact`);
* the Xpress compression primitives `RtlCompressBufferProgress` /
  `RtlDecompressBufferProgress` live in an external library, so the
  embedding is parametric in them: `comp` returns the compressed bytes,
  the STATUS_BUFFER_TOO_SMALL signal, or another failure status; `decomp`
  receives the compressed bytes and the expected uncompressed size;
* the OMI marshalling layer (`MI_Context`, the generated `_Post`,
  `_Construct` helpers) is an external collaborator; a context is an
  opaque token (`Nat`) and posting on a context delivers an event exactly
  when a context is present;
* `MI_Char` is `char` on this build, so `sizeof(MI_Char) = 1`, and the
  character literal `MI_T('=')` has type `int` in C, so its `sizeof` is 4.
-/

/-- MI_Result values used by Shell.c. -/
inductive MIResult
  | ok
  | failed
  | notFound
  | alreadyExists
  | notSupported
  | invalidParameter
  | serverLimitsExceeded
deriving DecidableEq, Repr

/-- DecodeBuffer from Shell.c: `buffer` holds the `bufferUsed` valid bytes,
`bufferLength` is the allocated size (`bufferUsed = buffer.length`). -/
structure DecodeBuffer where
  buffer : List Nat
  bufferLength : Nat
deriving DecidableEq, Repr

/-! ## Base64 framing (Base64DecodeBuffer / Base64EncodeBuffer)

`Base64Dec` / `Base64Enc` come from the OMI library (`base/base64.h`) and
are parameters (`b64dec`, `enc`); the callbacks only append to the output
buffer and fail as soon as the output would overflow the allocation, so
their net effect is the length checks below. -/

/-- Base64DecodeBuffer: allocates `fromBuffer->bufferUsed` output bytes,
fails if `Base64Dec` fails or the callback would overflow. -/
def Base64DecodeBuffer (b64dec : List Nat → Option (List Nat))
    (fromBuffer : DecodeBuffer) : Except MIResult DecodeBuffer :=
  match b64dec fromBuffer.buffer with
  | none => .error .failed
  | some out =>
    if out.length > fromBuffer.buffer.length then .error .failed
    else .ok ⟨out, fromBuffer.buffer.length⟩

/-- Size of `MI_Char` (`char` on this build). -/
def szMI_Char : Nat := 1

/-- Size of the character literal `MI_T('=')`: `'='` has type `int` in C. -/
def szEqualsLiteral : Nat := 4

/-- Output allocation of Base64EncodeBuffer:
`(bufferUsed * 4) / 3 + sizeof(MI_Char) + sizeof(MI_T('=')) * 2`. -/
def base64EncAllocLength (n : Nat) : Nat :=
  n * 4 / 3 + szMI_Char + szEqualsLiteral * 2

/-- Base64EncodeBuffer: allocates `base64EncAllocLength`, fails if the
callback would overflow or if less than `sizeof(MI_Char)` bytes of
trailing space remain after encoding. -/
def Base64EncodeBuffer (enc : List Nat → List Nat)
    (fromBuffer : DecodeBuffer) : Except MIResult DecodeBuffer :=
  let len := base64EncAllocLength fromBuffer.buffer.length
  let out := enc fromBuffer.buffer
  if out.length > len then .error .failed
  else if len - out.length < szMI_Char then .error .failed
  else .ok ⟨out, len⟩

/-! ## Chunked compression (CompressBuffer / DecompressBuffer)

A `CompressionHeader` is two little-endian `USHORT`s; both size fields are
stored as the true size minus one (the inherited protocol defect). -/

/-- Result of `RtlCompressBufferProgress` with an output buffer the same
size as the input chunk. -/
inductive CompRes
  | success (out : List Nat)
  | bufferTooSmall
  | error
deriving DecidableEq, Repr

/-- Little-endian byte pair of a `USHORT` value. -/
def u16le (n : Nat) : List Nat := [n % 256, n / 256 % 256]

/-- Read a little-endian `USHORT` at byte offset `i`; bytes outside the
list (uninitialized memory in the C) read as 0. -/
def readU16 (l : List Nat) (i : Nat) : Nat :=
  l.getD i 0 + 256 * l.getD (i + 1) 0

/-- Model of `memcpy(dst, src, n)` from a cursor: the available bytes,
zero-padded (uninitialized memory) to exactly `n` bytes. -/
def readExact (l : List Nat) (n : Nat) : List Nat :=
  l.take n ++ List.replicate (n - l.length) 0

/-- MAX_COMPRESS_BUFFER_BLOCK: maximum uncompressed chunk size (64 KiB). -/
def MAX_COMPRESS_BUFFER_BLOCK : Nat := 64 * 1024

/-- Number of chunks CompressBuffer plans for `n` input bytes. -/
def numChunks (n : Nat) : Nat :=
  n / MAX_COMPRESS_BUFFER_BLOCK +
    (if n % MAX_COMPRESS_BUFFER_BLOCK = 0 then 0 else 1)

/-- Per-chunk outcome of the compression primitive as CompressBuffer uses
it: `STATUS_BUFFER_TOO_SMALL` falls back to the verbatim chunk, any other
failure aborts. -/
def compressedPayload : CompRes → List Nat → Option (List Nat)
  | .success c, _ => some c
  | .bufferTooSmall, chunk => some chunk
  | .error, _ => none

/-- Compression loop of CompressBuffer: one 64 KiB chunk at a time, each
chunk preceded by a header whose `USHORT` fields hold the sizes minus one
(`chunkSize - 1`, `actualToChunkSize - 1`, with the unsigned wrap of the
C subtraction made explicit). `used` is `toBuffer->bufferUsed`, `bufLen`
is `toBuffer->bufferLength`. -/
def compressLoop (comp : List Nat → CompRes) (bufLen : Nat)
    (b : List Nat) (used : Nat) : Except MIResult (List Nat) :=
  if hb : b = [] then .ok []
  else
    if used + (b.take MAX_COMPRESS_BUFFER_BLOCK).length + 4 > bufLen then
      .error .failed
    else
      match compressedPayload (comp (b.take MAX_COMPRESS_BUFFER_BLOCK))
          (b.take MAX_COMPRESS_BUFFER_BLOCK) with
      | none => .error .failed
      | some payload =>
        match compressLoop comp bufLen (b.drop MAX_COMPRESS_BUFFER_BLOCK)
            (used + 4 + payload.length) with
        | .error e => .error e
        | .ok rest =>
          .ok (u16le (((b.take MAX_COMPRESS_BUFFER_BLOCK).length + 65535) % 65536) ++
               u16le ((payload.length + 65535) % 65536) ++ payload ++ rest)
termination_by b.length
decreasing_by
  have hp : 0 < b.length := List.length_pos.mpr hb
  simp only [List.length_drop, MAX_COMPRESS_BUFFER_BLOCK]
  omega

/-- CompressBuffer: allocates headers-plus-input-plus-extra space and runs
the chunk loop. -/
def CompressBuffer (comp : List Nat → CompRes) (fromBuffer : DecodeBuffer)
    (extraSpaceToAllocate : Nat) : Except MIResult DecodeBuffer :=
  let bufLen := 4 * numChunks fromBuffer.buffer.length +
    fromBuffer.buffer.length + extraSpaceToAllocate
  (compressLoop comp bufLen fromBuffer.buffer 0).map (fun e => ⟨e, bufLen⟩)

/-- CalculateTotalUncompressedSize: walks the headers summing
`originalSize + 1`, advancing by `compressedSize + 1` plus the header
size.  The C scans up to `bufferLength` (not `bufferUsed`), so the walk
may continue into unwritten memory, modelled as zero bytes; `rem` is the
distance to the end of the allocation. -/
def CalculateTotalUncompressedSize (buf : List Nat) (rem : Nat) : Nat :=
  if h : rem = 0 then 0
  else
    readU16 buf 0 + 1 +
      CalculateTotalUncompressedSize (buf.drop (readU16 buf 2 + 5))
        (rem - (readU16 buf 2 + 5))
termination_by rem
decreasing_by omega

/-- Decompression loop of DecompressBuffer: reads the header of each
chunk, checks the output budget against `originalSize + 1`, copies the
chunk verbatim when the two stored sizes are equal and otherwise hands
`compressedSize + 1` input bytes and the target size `originalSize + 1`
to the decompression primitive. -/
def decompLoop (decomp : List Nat → Nat → Option (List Nat)) (outLen : Nat)
    (rest : List Nat) (used : Nat) (acc : List Nat) :
    Except MIResult (List Nat) :=
  if hr : rest = [] then .ok acc
  else
    if used + readU16 rest 0 + 1 > outLen then .error .failed
    else
      if readU16 rest 0 = readU16 rest 2 then
        decompLoop decomp outLen (rest.drop (4 + readU16 rest 2 + 1))
          (used + (readU16 rest 0 + 1))
          (acc ++ readExact (rest.drop 4) (readU16 rest 0 + 1))
      else
        match decomp (readExact (rest.drop 4) (readU16 rest 2 + 1))
            (readU16 rest 0 + 1) with
        | none => .error .failed
        | some out =>
          decompLoop decomp outLen (rest.drop (4 + readU16 rest 2 + 1))
            (used + out.length) (acc ++ out)
termination_by rest.length
decreasing_by
  all_goals
    have hp : 0 < rest.length := List.length_pos.mpr hr
    simp only [List.length_drop]
    omega

/-- DecompressBuffer: sizes the output by scanning the headers over the
whole allocation, then decompresses the `bufferUsed` valid bytes chunk by
chunk. -/
def DecompressBuffer (decomp : List Nat → Nat → Option (List Nat))
    (fromBuffer : DecodeBuffer) : Except MIResult DecodeBuffer :=
  let len := CalculateTotalUncompressedSize fromBuffer.buffer
    fromBuffer.bufferLength
  (decompLoop decomp len fromBuffer.buffer 0 []).map (fun out => ⟨out, len⟩)

/-- Contract of the external Xpress primitives that the round-trip relies
on: compression never reports a status other than success or
buffer-too-small, and a successful compression is strictly shrinking,
non-empty, and inverted by decompression at the original size. -/
def GoodCodec (comp : List Nat → CompRes)
    (decomp : List Nat → Nat → Option (List Nat)) : Prop :=
  ∀ b, comp b ≠ .error ∧
    ∀ c, comp b = .success c →
      c ≠ [] ∧ c.length < b.length ∧ decomp c b.length = some b

/-- A degenerate but legal instance of the compression primitive: it
always reports that the compressed form would not fit, so every chunk is
stored verbatim. -/
def noComp : List Nat → CompRes := fun _ => .bufferTooSmall

/-- Decompression primitive matching `noComp`: it is never reached. -/
def noDecomp : List Nat → Nat → Option (List Nat) := fun _ _ => none

/-- Base64 decoder that always fails; usable whenever no data is sent. -/
def noB64 : List Nat → Option (List Nat) := fun _ => none

/-! ## Session model (Shell_Self, ShellData, CommandData)

The registry is the linked list rooted at `Shell_Self::shellList`; a
shell owns at most one command.  `MI_Context` values are opaque tokens
(`Nat`); the outcome record of each operation collects the result posted
to the caller, the post-state, and every event delivered on a receive
context. -/

/-- StreamData from Shell.c: one outbound stream and its done flag. -/
structure StreamData where
  streamName : String
  done : Bool
deriving DecidableEq, Repr

/-- CommandData from Shell.c (the fields the data plane touches):
`receiveContext` is the single pending-receive slot. -/
structure CommandData where
  commandId : String
  outboundStreams : List StreamData
  receiveContext : Option Nat
deriving DecidableEq, Repr

/-- ShellData from Shell.c (the fields the data plane touches). -/
structure ShellData where
  shellId : String
  command : Option CommandData
  outboundStreamNames : List String
  isCompressed : Bool
deriving DecidableEq, Repr

/-- Shell_Self: the list of active shells. -/
structure Shell_Self where
  shellList : List ShellData
deriving DecidableEq, Repr

/-- Scan of the shell list (the `while`/`Tcscmp` loop of `FindShell`). -/
def findShellList : List ShellData → String → Option ShellData
  | [], _ => none
  | s :: rest, shellId =>
    if shellId = s.shellId then some s else findShellList rest shellId

/-- FindShell from Shell.c. -/
def FindShell (self : Shell_Self) (shellId : String) : Option ShellData :=
  findShellList self.shellList shellId

/-- In-place mutation of the first list node with the given id (the C
mutates through the pointer `FindShell` returned). -/
def updateFirstShell : List ShellData → String → Option CommandData →
    List ShellData
  | [], _, _ => []
  | s :: rest, shellId, c =>
    if shellId = s.shellId then { s with command := c } :: rest
    else s :: updateFirstShell rest shellId c

/-- Replace the `command` field of the shell `FindShell` would return. -/
def setCommand (self : Shell_Self) (shellId : String)
    (c : Option CommandData) : Shell_Self :=
  ⟨updateFirstShell self.shellList shellId c⟩

/-- The CommandState/Done URI posted by Send and Signal. -/
def commandStateDone : String :=
  "http://schemas.microsoft.com/wbem/wsman/1/windows/shell/CommandState/Done"

/-- The CommandState/Running URI posted by Send. -/
def commandStateRunning : String :=
  "http://schemas.microsoft.com/wbem/wsman/1/windows/shell/CommandState/Running"

/-- End-of-stream bookkeeping loop of Shell_Invoke_Send (lines 890-897):
`for (i = 0; i != outboundStreamNamesCount; i++)
   if (Tcscmp(sentName, outboundStreams[i].streamName)) { done = TRUE; break; }`
Note the truthiness of `Tcscmp`: the first entry whose name DIFFERS from
the sent name is marked done.  The fuel `n` is the shell's
`outboundStreamNamesCount`; `none` models the out-of-bounds read the C
performs when the command's stream array is shorter than that count. -/
def markEndOfStream (sent : String) : Nat → List StreamData →
    Option (List StreamData)
  | 0, streams => some streams
  | _ + 1, [] => none
  | n + 1, s :: rest =>
    if sent ≠ s.streamName then some ({ s with done := true } :: rest)
    else (markEndOfStream sent n rest).map (s :: ·)

/-- A receive-result instance posted on a receive context
(`Shell_Receive_Post`): the CommandState URI and the embedded Stream
(name / commandId / endOfStream; Send and Signal never attach data to
it). -/
structure ReceiveReply where
  ctx : Nat
  state : String
  streamName : Option String
  streamCommandId : Option String
  endOfStream : Option Bool
  miReturn : MIResult
deriving DecidableEq, Repr

/-- Outcome of one Shell_Invoke_Send call: the result posted to the Send
caller, the post-state, the `MI_Context_PostResult` events on the claimed
receive context, the receive-result instance (delivered only when a
receive context exists), and the data forwarded to `WSMAN_PLUGIN_SEND`. -/
structure SendOutcome where
  result : MIResult
  self : Shell_Self
  receivePosts : List (Nat × MIResult)
  receiveReply : Option ReceiveReply
  backendSends : List (String × List Nat)
deriving DecidableEq, Repr

/-- Codec pipeline of Shell_Invoke_Send: base64-decode, then, on a
compressed shell, decompress. -/
def sendDecode (b64dec : List Nat → Option (List Nat))
    (decomp : List Nat → Nat → Option (List Nat)) (isCompressed : Bool)
    (data : List Nat) : Except MIResult DecodeBuffer :=
  match Base64DecodeBuffer b64dec ⟨data, data.length⟩ with
  | .error e => .error e
  | .ok d => if isCompressed then DecompressBuffer decomp d else .ok d

/-- Shell_Invoke_Send.  `none` models the undefined behaviour the C runs
into (dereferencing the null `thisShell->command`, or indexing past the
stream array).  All mutations (claiming the receive context, the
end-of-stream marking) happen before the codec stages, exactly as in the
C, so they persist on the codec-error path. -/
def Shell_Invoke_Send (b64dec : List Nat → Option (List Nat))
    (decomp : List Nat → Nat → Option (List Nat)) (self : Shell_Self)
    (shellId : String) (commandId : Option String) (streamName : String)
    (data : Option (List Nat)) (endOfStream : Bool) : Option SendOutcome :=
  match FindShell self shellId with
  | none => some ⟨.notFound, self, [], none, []⟩
  | some thisShell =>
    match commandId with
    | none => some ⟨.notSupported, self, [], none, []⟩
    | some cid =>
      match thisShell.command with
      | none => none
      | some cmd =>
        if cid = cmd.commandId then
          match (if endOfStream then
                   markEndOfStream streamName
                     thisShell.outboundStreamNames.length cmd.outboundStreams
                 else some cmd.outboundStreams) with
          | none => none
          | some streams1 =>
            let rc := cmd.receiveContext
            let state := if endOfStream then commandStateDone
                         else commandStateRunning
            let self1 := setCommand self shellId
              (some { cmd with receiveContext := none,
                               outboundStreams := streams1 })
            match data with
            | none =>
              some ⟨.ok, self1, rc.toList.map (fun r => (r, .ok)),
                    rc.map (fun r =>
                      ⟨r, state, some streamName, some cid, some endOfStream, .ok⟩),
                    []⟩
            | some d =>
              match sendDecode b64dec decomp thisShell.isCompressed d with
              | .error e =>
                some ⟨e, self1, rc.toList.map (fun r => (r, e)), none, []⟩
              | .ok db =>
                some ⟨.ok, self1, rc.toList.map (fun r => (r, .ok)),
                      rc.map (fun r =>
                        ⟨r, state, some streamName, some cid, some endOfStream, .ok⟩),
                      [(streamName, db.buffer)]⟩
        else some ⟨.notFound, self, [], none, []⟩

/-- Outcome of one Shell_Invoke_Receive call: `result = none` means the
call was left pending (it is completed later by a Send or Signal);
`backendReceive` records the `WSMAN_PLUGIN_RECEIVE` request. -/
structure ReceiveOutcome where
  result : Option MIResult
  self : Shell_Self
  backendReceive : Bool
deriving DecidableEq, Repr

/-- Shell_Invoke_Receive.  `none` models the null dereference on
`thisShell->command->commandId` when no command is attached. -/
def Shell_Invoke_Receive (self : Shell_Self) (shellId : String)
    (commandId : Option String) (ctx : Nat) : Option ReceiveOutcome :=
  match FindShell self shellId with
  | none => some ⟨some .notFound, self, false⟩
  | some thisShell =>
    match commandId with
    | none => some ⟨some .notSupported, self, false⟩
    | some cid =>
      match thisShell.command with
      | none => none
      | some cmd =>
        if cid = cmd.commandId then
          match cmd.receiveContext with
          | some _ => some ⟨some .alreadyExists, self, false⟩
          | none =>
            some ⟨none,
              setCommand self shellId (some { cmd with receiveContext := some ctx }),
              true⟩
        else some ⟨some .notFound, self, false⟩

/-- Outcome of one Shell_Invoke_Signal call. -/
structure SignalOutcome where
  result : MIResult
  self : Shell_Self
  receivePosts : List (Nat × MIResult)
  receiveReply : Option ReceiveReply
deriving DecidableEq, Repr

/-- Pending-receive flush block of Shell_Invoke_Signal (lines 1090-1133):
when a receive context is pending, claim it and post a receive-result
with CommandState/Done, attaching a terminal Stream for
`outboundStreams[0]` exactly when that stream's done flag is not set.
The done flag itself is only read, never written.  `none` models the
out-of-bounds read of `outboundStreams[0]` on an empty stream array. -/
def signalFlushReceive (commandId : Option String) (cmd : CommandData) :
    Option (CommandData × List (Nat × MIResult) × Option ReceiveReply) :=
  match cmd.receiveContext with
  | none => some (cmd, [], none)
  | some rctx =>
    match cmd.outboundStreams with
    | [] => none
    | s0 :: _ =>
      some ({ cmd with receiveContext := none }, [(rctx, .ok)],
        some ⟨rctx, commandStateDone,
          if s0.done then none else some s0.streamName,
          if s0.done then none else commandId,
          none, .ok⟩)

/-- Shell_Invoke_Signal.  The `error:` label is reached on every path and
unconditionally frees the command (`free(thisShell->command)`), so even
the mismatched-commandId path detaches the attached command.  `none`
models the null dereferences (unknown shell: the error label dereferences
`thisShell`; no attached command: lines 1080 / 1090). -/
def Shell_Invoke_Signal (self : Shell_Self) (shellId : String)
    (commandId : Option String) : Option SignalOutcome :=
  match FindShell self shellId with
  | none => none
  | some thisShell =>
    match thisShell.command with
    | none => none
    | some cmd =>
      match commandId with
      | some cid =>
        if cid = cmd.commandId then
          match signalFlushReceive commandId cmd with
          | none => none
          | some (_, posts, reply) =>
            some ⟨.ok, setCommand self shellId none, posts, reply⟩
        else some ⟨.notFound, setCommand self shellId none, [], none⟩
      | none =>
        match signalFlushReceive none cmd with
        | none => none
        | some (_, posts, reply) =>
          some ⟨.ok, setCommand self shellId none, posts, reply⟩

/-- Shell_Invoke_Command.  On success the call does not complete (the
result is posted by the asynchronous `WSManPluginReportContext`
callback), the new command's stream table has one not-done entry per
declared outbound stream, and line 444 stores the invoke call's context
in `receiveContext`.  The C derives the command id from the allocation
address; the model takes it as the input `newId`.  On the
already-attached path the `error:` block deletes the existing command;
with an unknown shell the `error:` block dereferences the null
`thisShell` (`none`). -/
def Shell_Invoke_Command (self : Shell_Self) (shellId : String) (ctx : Nat)
    (newId : String) : Option (Option MIResult × Shell_Self) :=
  match FindShell self shellId with
  | none => none
  | some thisShell =>
    match thisShell.command with
    | some _ => some (some .alreadyExists, setCommand self shellId none)
    | none =>
      some (none,
        setCommand self shellId
          (some { commandId := newId,
                  outboundStreams :=
                    thisShell.outboundStreamNames.map
                      (fun n => { streamName := n, done := false }),
                  receiveContext := some ctx }))

/-! ## Helper lemmas for the chunk format -/

lemma u16le_cons (n : Nat) (t : List Nat) :
    u16le n ++ t = n % 256 :: n / 256 % 256 :: t := rfl

lemma readU16_pair (x0 x1 : Nat) (t : List Nat) :
    readU16 (x0 :: x1 :: t) 0 = x0 + 256 * x1 := rfl

lemma readU16_two (x0 x1 : Nat) (t : List Nat) :
    readU16 (x0 :: x1 :: t) 2 = readU16 t 0 := rfl

lemma drop_four (a b c d : Nat) (t : List Nat) (n : Nat) :
    (a :: b :: c :: d :: t).drop (n + 4) = t.drop n := by
  rw [show n + 4 = n + 3 + 1 from rfl, List.drop_succ_cons,
      show n + 3 = n + 2 + 1 from rfl, List.drop_succ_cons,
      show n + 2 = n + 1 + 1 from rfl, List.drop_succ_cons,
      List.drop_succ_cons]

lemma drop_all_append (l t : List Nat) : (l ++ t).drop l.length = t := by
  simp

lemma readExact_append (l t : List Nat) : readExact (l ++ t) l.length = l := by
  simp [readExact]

lemma add_wrap_sub_one (k : Nat) (h1 : 1 ≤ k) (h2 : k ≤ 65536) :
    (k + 65535) % 65536 = k - 1 := by omega

lemma numChunks_pos (n : Nat) (h : n ≠ 0) : 1 ≤ numChunks n := by
  simp only [numChunks, MAX_COMPRESS_BUFFER_BLOCK]
  split <;> omega

lemma numChunks_split (n : Nat) (h : n ≠ 0) :
    numChunks n = numChunks (n - 65536) + 1 := by
  simp only [numChunks, MAX_COMPRESS_BUFFER_BLOCK]
  split <;> split <;> omega

/-- Shape of the byte stream `compressLoop` emits: a concatenation of
chunks, each carrying the two size fields stored as size minus one, each
payload either the verbatim chunk or a strictly smaller compressed form
that the decompression primitive inverts. -/
inductive Chunked (decomp : List Nat → Nat → Option (List Nat)) :
    List Nat → List Nat → Prop
  | nil : Chunked decomp [] []
  | cons (chunk payload b e : List Nat)
      (hchunk : chunk ≠ []) (hpayload : payload ≠ [])
      (hmax : chunk.length ≤ 65536)
      (hle : payload.length ≤ chunk.length)
      (heq : payload.length = chunk.length → payload = chunk)
      (hlt : payload.length < chunk.length →
        decomp payload chunk.length = some chunk)
      (htail : Chunked decomp b e) :
      Chunked decomp (chunk ++ b)
        (u16le (chunk.length - 1) ++ u16le (payload.length - 1) ++ payload ++ e)

/-- The compression loop succeeds whenever the output allocation covers
one header per chunk plus the input bytes, and its output is `Chunked`
and no longer than that allocation budget. -/
theorem compressLoop_chunked (comp : List Nat → CompRes)
    (decomp : List Nat → Nat → Option (List Nat)) (h : GoodCodec comp decomp) :
    ∀ (n : Nat) (b : List Nat) (used bufLen : Nat), b.length ≤ n →
      used + 4 * numChunks b.length + b.length ≤ bufLen →
      ∃ e, compressLoop comp bufLen b used = .ok e ∧ Chunked decomp b e ∧
        e.length ≤ 4 * numChunks b.length + b.length := by
  intro n
  induction n with
  | zero =>
    intro b used bufLen hb _
    have hbe : b = [] := List.eq_nil_of_length_eq_zero (Nat.le_zero.mp hb)
    subst hbe
    refine ⟨[], ?_, Chunked.nil, by simp⟩
    rw [compressLoop]
    simp
  | succ n ih =>
    intro b used bufLen hb hcap
    by_cases hbe : b = []
    · subst hbe
      refine ⟨[], ?_, Chunked.nil, by simp⟩
      rw [compressLoop]
      simp
    · have hbpos : 0 < b.length := List.length_pos.mpr hbe
      have hkmin : (b.take MAX_COMPRESS_BUFFER_BLOCK).length
          = min 65536 b.length := by
        simp [MAX_COMPRESS_BUFFER_BLOCK]
      have hk1 : 1 ≤ (b.take MAX_COMPRESS_BUFFER_BLOCK).length := by omega
      have hk65536 : (b.take MAX_COMPRESS_BUFFER_BLOCK).length ≤ 65536 := by
        omega
      have hkb : (b.take MAX_COMPRESS_BUFFER_BLOCK).length ≤ b.length := by
        omega
      have hnc1 : 1 ≤ numChunks b.length := numChunks_pos _ (by omega)
      have hsplit : numChunks b.length = numChunks (b.length - 65536) + 1 :=
        numChunks_split _ (by omega)
      have hdroplen : (b.drop MAX_COMPRESS_BUFFER_BLOCK).length
          = b.length - 65536 := by
        simp [MAX_COMPRESS_BUFFER_BLOCK]
      have hchk : ¬ (used + (b.take MAX_COMPRESS_BUFFER_BLOCK).length + 4
          > bufLen) := by omega
      -- properties of the chunk payload, by cases on the primitive
      obtain ⟨payload, hpl, hpne, hple, hpeq, hplt⟩ :
          ∃ payload,
            compressedPayload (comp (b.take MAX_COMPRESS_BUFFER_BLOCK))
              (b.take MAX_COMPRESS_BUFFER_BLOCK) = some payload ∧
            payload ≠ [] ∧
            payload.length ≤ (b.take MAX_COMPRESS_BUFFER_BLOCK).length ∧
            (payload.length = (b.take MAX_COMPRESS_BUFFER_BLOCK).length →
              payload = b.take MAX_COMPRESS_BUFFER_BLOCK) ∧
            (payload.length < (b.take MAX_COMPRESS_BUFFER_BLOCK).length →
              decomp payload (b.take MAX_COMPRESS_BUFFER_BLOCK).length
                = some (b.take MAX_COMPRESS_BUFFER_BLOCK)) := by
        cases hcp : comp (b.take MAX_COMPRESS_BUFFER_BLOCK) with
        | success c =>
          obtain ⟨hc0, hclt, hcd⟩ := (h (b.take MAX_COMPRESS_BUFFER_BLOCK)).2 c hcp
          exact ⟨c, by simp [compressedPayload], hc0, Nat.le_of_lt hclt,
            fun habs => absurd habs (by omega), fun _ => hcd⟩
        | bufferTooSmall =>
          refine ⟨b.take MAX_COMPRESS_BUFFER_BLOCK, by simp [compressedPayload],
            ?_, le_rfl, fun _ => rfl, fun habs => absurd habs (by omega)⟩
          intro hnil
          rw [hnil] at hkmin
          simp at hkmin
          omega
        | error => exact absurd hcp (h (b.take MAX_COMPRESS_BUFFER_BLOCK)).1
      have hp1 : 1 ≤ payload.length := List.length_pos.mpr hpne
      have hne : b.take MAX_COMPRESS_BUFFER_BLOCK ≠ [] := by
        intro hnil
        rw [hnil] at hkmin
        simp at hkmin
        omega
      obtain ⟨rest, hrest, hchrest, hlenrest⟩ :=
        ih (b.drop MAX_COMPRESS_BUFFER_BLOCK) (used + 4 + payload.length)
          bufLen (by rw [hdroplen]; omega) (by rw [hdroplen]; omega)
      refine ⟨u16le ((b.take MAX_COMPRESS_BUFFER_BLOCK).length - 1) ++
        u16le (payload.length - 1) ++ payload ++ rest, ?_, ?_, ?_⟩
      · rw [compressLoop]
        rw [dif_neg hbe, if_neg hchk, hpl]
        simp only [hrest]
        rw [add_wrap_sub_one _ hk1 hk65536,
            add_wrap_sub_one _ hp1 (by omega)]
      · have hcons := Chunked.cons (b.take MAX_COMPRESS_BUFFER_BLOCK) payload
          (b.drop MAX_COMPRESS_BUFFER_BLOCK) rest
          hne hpne hk65536 hple hpeq hplt hchrest
        rwa [List.take_append_drop] at hcons
      · simp only [List.length_append, u16le, List.length_cons,
          List.length_nil]
        rw [hdroplen] at hlenrest
        omega

lemma decompLoop_nil (decomp : List Nat → Nat → Option (List Nat))
    (outLen used : Nat) (acc : List Nat) :
    decompLoop decomp outLen [] used acc = .ok acc := by
  rw [decompLoop]
  simp

/-- The two appended header halves, as an explicit four-byte prefix. -/
lemma header_cons (a b : Nat) (t : List Nat) :
    u16le a ++ u16le b ++ t
      = a % 256 :: a / 256 % 256 :: b % 256 :: b / 256 % 256 :: t := by
  simp [u16le]

/-- One verbatim chunk (equal stored size fields `o`): the loop
consumes the four header bytes plus `o + 1` payload bytes and emits
those `o + 1` bytes. -/
lemma decompLoop_step_verbatim (decomp : List Nat → Nat → Option (List Nat))
    (outLen o : Nat) (body : List Nat) (used : Nat) (acc : List Nat)
    (ho : o < 65536) (hbudget : used + o + 1 ≤ outLen) :
    decompLoop decomp outLen (u16le o ++ u16le o ++ body) used acc =
      decompLoop decomp outLen (body.drop (o + 1)) (used + (o + 1))
        (acc ++ readExact body (o + 1)) := by
  have h0 : readU16 (u16le o ++ u16le o ++ body) 0 = o := by
    rw [header_cons, readU16_pair]
    omega
  have h2 : readU16 (u16le o ++ u16le o ++ body) 2 = o := by
    rw [header_cons, readU16_two, readU16_pair]
    omega
  have hdrop4 : (u16le o ++ u16le o ++ body).drop 4 = body := by
    rw [header_cons]
    rfl
  have hdropstep : (u16le o ++ u16le o ++ body).drop (4 + o + 1)
      = body.drop (o + 1) := by
    rw [header_cons, show 4 + o + 1 = (o + 1) + 4 from by omega, drop_four]
  conv_lhs => rw [decompLoop]
  rw [dif_neg (by rw [header_cons]; simp)]
  rw [h0, h2, if_neg (by omega), if_pos rfl, hdrop4, hdropstep]

/-- One compressed chunk (distinct stored size fields `o ≠ c`): the loop
hands `c + 1` input bytes and the target size `o + 1` to the primitive
and consumes the four header bytes plus `c + 1` payload bytes. -/
lemma decompLoop_step_decomp (decomp : List Nat → Nat → Option (List Nat))
    (outLen o c : Nat) (body : List Nat) (used : Nat) (acc out : List Nat)
    (ho : o < 65536) (hc : c < 65536) (hne : o ≠ c)
    (hbudget : used + o + 1 ≤ outLen)
    (hdec : decomp (readExact body (c + 1)) (o + 1) = some out) :
    decompLoop decomp outLen (u16le o ++ u16le c ++ body) used acc =
      decompLoop decomp outLen (body.drop (c + 1)) (used + out.length)
        (acc ++ out) := by
  have h0 : readU16 (u16le o ++ u16le c ++ body) 0 = o := by
    rw [header_cons, readU16_pair]
    omega
  have h2 : readU16 (u16le o ++ u16le c ++ body) 2 = c := by
    rw [header_cons, readU16_two, readU16_pair]
    omega
  have hdrop4 : (u16le o ++ u16le c ++ body).drop 4 = body := by
    rw [header_cons]
    rfl
  have hdropstep : (u16le o ++ u16le c ++ body).drop (4 + c + 1)
      = body.drop (c + 1) := by
    rw [header_cons, show 4 + c + 1 = (c + 1) + 4 from by omega, drop_four]
  conv_lhs => rw [decompLoop]
  rw [dif_neg (by rw [header_cons]; simp)]
  rw [h0, h2, if_neg (by omega), if_neg hne, hdrop4, hdec, hdropstep]

/-- One step of the size pre-scan over a chunk with stored fields
`o`, `c`: it adds `o + 1` and advances by the header plus `c + 1`. -/
lemma calcSize_step (o c : Nat) (body : List Nat) (rem : Nat)
    (ho : o < 65536) (hc : c < 65536) (hrem : rem ≠ 0) :
    CalculateTotalUncompressedSize (u16le o ++ u16le c ++ body) rem =
      o + 1 + CalculateTotalUncompressedSize (body.drop (c + 1))
        (rem - (c + 5)) := by
  have h0 : readU16 (u16le o ++ u16le c ++ body) 0 = o := by
    rw [header_cons, readU16_pair]
    omega
  have h2 : readU16 (u16le o ++ u16le c ++ body) 2 = c := by
    rw [header_cons, readU16_two, readU16_pair]
    omega
  have hdropstep : (u16le o ++ u16le c ++ body).drop (c + 5)
      = body.drop (c + 1) := by
    rw [header_cons, show c + 5 = (c + 1) + 4 from by omega, drop_four]
  conv_lhs => rw [CalculateTotalUncompressedSize]
  rw [dif_neg hrem, h0, h2, hdropstep]

/-- The size pre-scan over a `Chunked` stream is at least the total
uncompressed size, for any allocation bound reaching the stream's end
(the C scans to `bufferLength`, which may overshoot the written bytes;
the overshoot only adds). -/
theorem calcSize_ge (decomp : List Nat → Nat → Option (List Nat))
    {b e : List Nat} (hch : Chunked decomp b e) :
    ∀ rem, e.length ≤ rem →
      b.length ≤ CalculateTotalUncompressedSize e rem := by
  induction hch with
  | nil => intro rem _; simp
  | cons chunk payload b e hchunk hpayload hmax hle heq hlt htail ih =>
    intro rem hrem
    have hk1 : 0 < chunk.length := List.length_pos.mpr hchunk
    have hp1 : 0 < payload.length := List.length_pos.mpr hpayload
    have hlenE : (u16le (chunk.length - 1) ++ u16le (payload.length - 1) ++
        payload ++ e).length = 4 + payload.length + e.length := by
      simp only [List.length_append, u16le, List.length_cons, List.length_nil]
    rw [List.append_assoc]
    rw [calcSize_step (chunk.length - 1) (payload.length - 1) (payload ++ e)
      rem (by omega) (by omega) (by omega)]
    rw [show payload.length - 1 + 1 = payload.length from by omega,
        drop_all_append]
    have hih := ih (rem - (payload.length - 1 + 5)) (by omega)
    simp only [List.length_append]
    omega

/-- The decompression loop inverts a `Chunked` stream whenever the output
budget covers the total uncompressed size. -/
theorem decompLoop_chunked (decomp : List Nat → Nat → Option (List Nat))
    {b e : List Nat} (hch : Chunked decomp b e) :
    ∀ outLen used acc, used + b.length ≤ outLen →
      decompLoop decomp outLen e used acc = .ok (acc ++ b) := by
  induction hch with
  | nil =>
    intro outLen used acc _
    rw [decompLoop_nil]
    simp
  | cons chunk payload b e hchunk hpayload hmax hle heq hlt htail ih =>
    intro outLen used acc hbud
    have hk1 : 0 < chunk.length := List.length_pos.mpr hchunk
    have hp1 : 0 < payload.length := List.length_pos.mpr hpayload
    have hbud' : used + (chunk.length + b.length) ≤ outLen := by
      simpa [List.length_append] using hbud
    rw [List.append_assoc]
    by_cases hpk : payload.length = chunk.length
    · have hpc : payload = chunk := heq hpk
      rw [show u16le (payload.length - 1) = u16le (chunk.length - 1) from by
        rw [hpk]]
      rw [decompLoop_step_verbatim decomp outLen (chunk.length - 1)
        (payload ++ e) used acc (by omega) (by omega)]
      rw [show chunk.length - 1 + 1 = payload.length from by omega]
      rw [drop_all_append, readExact_append, hpc]
      rw [ih outLen (used + chunk.length) (acc ++ chunk) (by omega)]
      simp [List.append_assoc]
    · have hplt' : payload.length < chunk.length := lt_of_le_of_ne hle hpk
      have hdec : decomp (readExact (payload ++ e) (payload.length - 1 + 1))
          (chunk.length - 1 + 1) = some chunk := by
        rw [show payload.length - 1 + 1 = payload.length from by omega,
            show chunk.length - 1 + 1 = chunk.length from by omega,
            readExact_append]
        exact hlt hplt'
      rw [decompLoop_step_decomp decomp outLen (chunk.length - 1)
        (payload.length - 1) (payload ++ e) used acc chunk (by omega)
        (by omega) (by omega) (by omega) hdec]
      rw [show payload.length - 1 + 1 = payload.length from by omega,
          drop_all_append]
      rw [ih outLen (used + chunk.length) (acc ++ chunk) (by omega)]
      simp [List.append_assoc]

/-- Claim C1: for every byte buffer `B`, including the empty buffer and
buffers spanning multiple 64 KiB chunks, decompressing the result of
compressing `B` with `extraTrailingSpace = 0` yields exactly `B`
(CompressBuffer followed by DecompressBuffer is the identity on the
payload bytes), assuming the external Xpress primitives satisfy their
contract (`GoodCodec`). -/
theorem compress_decompress_roundtrip (comp : List Nat → CompRes)
    (decomp : List Nat → Nat → Option (List Nat))
    (h : GoodCodec comp decomp) (B : List Nat) :
    ∃ e : DecodeBuffer, CompressBuffer comp ⟨B, B.length⟩ 0 = .ok e ∧
      ∃ o : DecodeBuffer, DecompressBuffer decomp e = .ok o ∧
        o.buffer = B := by
  obtain ⟨e, hok, hch, hlen⟩ := compressLoop_chunked comp decomp h B.length B
    0 (4 * numChunks B.length + B.length + 0) le_rfl (by omega)
  refine ⟨⟨e, 4 * numChunks B.length + B.length + 0⟩, ?_, ?_⟩
  · simp only [CompressBuffer]
    rw [hok]
    rfl
  · have hcalc : B.length ≤ CalculateTotalUncompressedSize e
        (4 * numChunks B.length + B.length + 0) :=
      calcSize_ge decomp hch _ (by omega)
    have hloop := decompLoop_chunked decomp hch
      (CalculateTotalUncompressedSize e (4 * numChunks B.length + B.length + 0))
      0 [] (by omega)
    refine ⟨⟨B, CalculateTotalUncompressedSize e
      (4 * numChunks B.length + B.length + 0)⟩, ?_, rfl⟩
    simp only [DecompressBuffer]
    rw [show ([] : List Nat) ++ B = B from rfl] at hloop
    rw [hloop]
    rfl

/-- The degenerate primitives satisfy the codec contract. -/
lemma goodCodec_trivial : GoodCodec noComp noDecomp := by
  intro b
  constructor
  · simp [noComp]
  · intro c hc
    simp [noComp] at hc

/-- Witness for C1 at the concrete buffer `[7, 3]` and the degenerate
(always-verbatim) primitives. -/
theorem compress_decompress_roundtrip_witness :
    GoodCodec noComp noDecomp ∧
      ∃ e : DecodeBuffer, CompressBuffer noComp ⟨[7, 3], 2⟩ 0 = .ok e ∧
        ∃ o : DecodeBuffer, DecompressBuffer noDecomp e = .ok o ∧
          o.buffer = [7, 3] :=
  ⟨goodCodec_trivial,
    compress_decompress_roundtrip noComp noDecomp goodCodec_trivial [7, 3]⟩

/-- Claim C2: the chunk header fields are wire-encoded as the true size
minus one.  (1) Every chunk CompressBuffer produces stores
`chunkSize - 1` and `payloadSize - 1` (the remaining output is the loop
on the remaining input, so this describes every chunk);  (2) a chunk of
true original size 1 and compressed size 1 encodes header `{0,0}`;
(3)/(4) DecompressBuffer uses each stored field plus 1, both for the
verbatim copy and for the sizes handed to the primitive;  (5) a `{0,0}`
header is decoded as size 1 on each side. -/
theorem chunk_size_fields_minus_one (comp : List Nat → CompRes)
    (decomp : List Nat → Nat → Option (List Nat))
    (h : GoodCodec comp decomp) :
    (∀ (B : List Nat) (extra : Nat), B ≠ [] →
      ∃ payload rest, payload ≠ [] ∧
        payload.length ≤ (B.take MAX_COMPRESS_BUFFER_BLOCK).length ∧
        CompressBuffer comp ⟨B, B.length⟩ extra =
          .ok ⟨u16le ((B.take MAX_COMPRESS_BUFFER_BLOCK).length - 1) ++
               u16le (payload.length - 1) ++ payload ++ rest,
               4 * numChunks B.length + B.length + extra⟩ ∧
        compressLoop comp (4 * numChunks B.length + B.length + extra)
          (B.drop MAX_COMPRESS_BUFFER_BLOCK) (4 + payload.length)
          = .ok rest) ∧
    (∀ x : Nat, comp [x] = .bufferTooSmall →
      CompressBuffer comp ⟨[x], 1⟩ 0 = .ok ⟨[0, 0, 0, 0, x], 5⟩) ∧
    (∀ (o : Nat) (body : List Nat) (outLen used : Nat) (acc : List Nat),
      o < 65536 → used + o + 1 ≤ outLen →
      decompLoop decomp outLen (u16le o ++ u16le o ++ body) used acc =
        decompLoop decomp outLen (body.drop (o + 1)) (used + (o + 1))
          (acc ++ readExact body (o + 1))) ∧
    (∀ (o c : Nat) (body : List Nat) (outLen used : Nat) (acc out : List Nat),
      o < 65536 → c < 65536 → o ≠ c → used + o + 1 ≤ outLen →
      decomp (readExact body (c + 1)) (o + 1) = some out →
      decompLoop decomp outLen (u16le o ++ u16le c ++ body) used acc =
        decompLoop decomp outLen (body.drop (c + 1)) (used + out.length)
          (acc ++ out)) ∧
    (∀ x : Nat, DecompressBuffer decomp ⟨[0, 0, 0, 0, x], 5⟩
      = .ok ⟨[x], 1⟩) := by
  refine ⟨?_, ?_, ?_, ?_, ?_⟩
  · intro B extra hB
    have hbpos : 0 < B.length := List.length_pos.mpr hB
    have hkmin : (B.take MAX_COMPRESS_BUFFER_BLOCK).length
        = min 65536 B.length := by
      simp [MAX_COMPRESS_BUFFER_BLOCK]
    have hk1 : 1 ≤ (B.take MAX_COMPRESS_BUFFER_BLOCK).length := by omega
    have hk65536 : (B.take MAX_COMPRESS_BUFFER_BLOCK).length ≤ 65536 := by
      omega
    have hkb : (B.take MAX_COMPRESS_BUFFER_BLOCK).length ≤ B.length := by
      omega
    have hnc1 : 1 ≤ numChunks B.length := numChunks_pos _ (by omega)
    have hsplit : numChunks B.length = numChunks (B.length - 65536) + 1 :=
      numChunks_split _ (by omega)
    have hdroplen : (B.drop MAX_COMPRESS_BUFFER_BLOCK).length
        = B.length - 65536 := by
      simp [MAX_COMPRESS_BUFFER_BLOCK]
    have hchk : ¬ (0 + (B.take MAX_COMPRESS_BUFFER_BLOCK).length + 4
        > 4 * numChunks B.length + B.length + extra) := by omega
    obtain ⟨payload, hpl, hpne, hple⟩ :
        ∃ payload,
          compressedPayload (comp (B.take MAX_COMPRESS_BUFFER_BLOCK))
            (B.take MAX_COMPRESS_BUFFER_BLOCK) = some payload ∧
          payload ≠ [] ∧
          payload.length ≤ (B.take MAX_COMPRESS_BUFFER_BLOCK).length := by
      cases hcp : comp (B.take MAX_COMPRESS_BUFFER_BLOCK) with
      | success c =>
        obtain ⟨hc0, hclt, _⟩ := (h (B.take MAX_COMPRESS_BUFFER_BLOCK)).2 c hcp
        exact ⟨c, by simp [compressedPayload], hc0, Nat.le_of_lt hclt⟩
      | bufferTooSmall =>
        refine ⟨B.take MAX_COMPRESS_BUFFER_BLOCK,
          by simp [compressedPayload], ?_, le_rfl⟩
        intro hnil
        rw [hnil] at hkmin
        simp at hkmin
        omega
      | error => exact absurd hcp (h (B.take MAX_COMPRESS_BUFFER_BLOCK)).1
    have hp1 : 1 ≤ payload.length := List.length_pos.mpr hpne
    obtain ⟨rest, hrest, _, _⟩ := compressLoop_chunked comp decomp h
      (B.drop MAX_COMPRESS_BUFFER_BLOCK).length
      (B.drop MAX_COMPRESS_BUFFER_BLOCK) (4 + payload.length)
      (4 * numChunks B.length + B.length + extra) le_rfl
      (by rw [hdroplen]; omega)
    have hloop : compressLoop comp (4 * numChunks B.length + B.length + extra)
        B 0 = .ok (u16le ((B.take MAX_COMPRESS_BUFFER_BLOCK).length - 1) ++
          u16le (payload.length - 1) ++ payload ++ rest) := by
      rw [compressLoop]
      rw [dif_neg hB, if_neg hchk, hpl]
      simp only [Nat.zero_add]
      rw [hrest]
      rw [add_wrap_sub_one _ hk1 hk65536, add_wrap_sub_one _ hp1 (by omega)]
    refine ⟨payload, rest, hpne, hple, ?_, hrest⟩
    simp only [CompressBuffer]
    rw [hloop]
    rfl
  · intro x hcomp
    have htake : ([x] : List Nat).take MAX_COMPRESS_BUFFER_BLOCK = [x] := rfl
    have hdrop : ([x] : List Nat).drop MAX_COMPRESS_BUFFER_BLOCK = [] := rfl
    have hnum : numChunks ([x] : List Nat).length = 1 := by
      simp [numChunks, MAX_COMPRESS_BUFFER_BLOCK]
    have hnil : compressLoop comp (4 * numChunks ([x] : List Nat).length +
        ([x] : List Nat).length + 0) [] (0 + 4 + ([x] : List Nat).length)
        = .ok [] := by
      rw [compressLoop]
      simp
    have hloop : compressLoop comp (4 * numChunks ([x] : List Nat).length +
        ([x] : List Nat).length + 0) [x] 0 = .ok [0, 0, 0, 0, x] := by
      rw [compressLoop]
      rw [dif_neg (by simp : ¬([x] : List Nat) = [])]
      rw [if_neg (by rw [htake, hnum]; simp)]
      rw [htake, hcomp]
      simp only [compressedPayload]
      rw [hdrop, hnil]
      norm_num [u16le]
    simp only [CompressBuffer]
    rw [hloop]
    rw [hnum]
    rfl
  · intro o body outLen used acc ho hbudget
    exact decompLoop_step_verbatim decomp outLen o body used acc ho hbudget
  · intro o c body outLen used acc out ho hc hne hbudget hdec
    exact decompLoop_step_decomp decomp outLen o c body used acc out ho hc
      hne hbudget hdec
  · intro x
    have hform : ([0, 0, 0, 0, x] : List Nat) = u16le 0 ++ u16le 0 ++ [x] :=
      rfl
    have hcalc : CalculateTotalUncompressedSize [0, 0, 0, 0, x] 5 = 1 := by
      rw [hform, calcSize_step 0 0 [x] 5 (by norm_num) (by norm_num)
        (by norm_num)]
      rw [CalculateTotalUncompressedSize]
      norm_num
    have hloop : decompLoop decomp 1 [0, 0, 0, 0, x] 0 [] = .ok [x] := by
      rw [hform, decompLoop_step_verbatim decomp 1 0 [x] 0 [] (by norm_num)
        (by norm_num)]
      rw [show ([x] : List Nat).drop (0 + 1) = [] from rfl]
      rw [decompLoop_nil]
      norm_num [readExact]
    simp only [DecompressBuffer]
    rw [hcalc, hloop]
    rfl

/-- Witness for C2: the degenerate primitives satisfy the contract, and
the two concrete single-byte instances of the theorem hold at them. -/
theorem chunk_size_fields_minus_one_witness :
    GoodCodec noComp noDecomp ∧
      CompressBuffer noComp ⟨[9], 1⟩ 0 = .ok ⟨[0, 0, 0, 0, 9], 5⟩ ∧
      DecompressBuffer noDecomp ⟨[0, 0, 0, 0, 9], 5⟩ = .ok ⟨[9], 1⟩ :=
  ⟨goodCodec_trivial,
    (chunk_size_fields_minus_one noComp noDecomp goodCodec_trivial).2.1 9 rfl,
    (chunk_size_fields_minus_one noComp noDecomp goodCodec_trivial).2.2.2.2 9⟩

/-- Counterexample to Claim C8 as stated: for a 1-byte input the claimed
allocation `ceil(n*4/3) + 2` plus one terminator byte is 5, but
`Base64EncodeBuffer` allocates `(1*4)/3 + sizeof(MI_Char)
+ sizeof(MI_T('=')) * 2 = 1 + 1 + 8 = 10` bytes (integer division is a
floor, and the `sizeof` of the `int`-typed character literal is 4). -/
theorem base64_alloc_not_ceil :
    base64EncAllocLength 1 = 10 ∧ (1 * 4 + 2) / 3 + 2 + 1 = 5 ∧
      (10 : Nat) ≠ 5 := by
  refine ⟨?_, by norm_num, by norm_num⟩
  simp [base64EncAllocLength, szMI_Char, szEqualsLiteral]

/-- Claim C8 (amended): for every input of `n` bytes, base64 encoding
allocates an output buffer of `n*4/3 + 9` bytes (floor division; 1 byte
for the `sizeof(MI_Char)` term and 8 bytes for the two `int`-sized
`sizeof(MI_T('='))` terms), and the call succeeds exactly when the
encoded output leaves at least one terminator byte of trailing space —
otherwise it returns Failed, so it never produces a result lacking room
for the terminator. -/
theorem base64_encode_allocation (enc : List Nat → List Nat)
    (b : DecodeBuffer) :
    base64EncAllocLength b.buffer.length = b.buffer.length * 4 / 3 + 9 ∧
    Base64EncodeBuffer enc b =
      (if (enc b.buffer).length + 1 ≤ b.buffer.length * 4 / 3 + 9
       then .ok ⟨enc b.buffer, b.buffer.length * 4 / 3 + 9⟩
       else .error .failed) := by
  constructor
  · simp [base64EncAllocLength, szMI_Char, szEqualsLiteral]
  · simp only [Base64EncodeBuffer, base64EncAllocLength, szMI_Char,
      szEqualsLiteral]
    split_ifs <;> first | rfl | omega

/-! ## Helper lemmas for the session model -/

lemma findShellList_update_eq (sid : String) (c : Option CommandData) :
    ∀ (l : List ShellData) (shell : ShellData),
      findShellList l sid = some shell →
      findShellList (updateFirstShell l sid c) sid
        = some { shell with command := c } := by
  intro l
  induction l with
  | nil => intro shell h; simp [findShellList] at h
  | cons s t ih =>
    intro shell h
    by_cases hs : sid = s.shellId
    · simp only [findShellList, if_pos hs] at h
      injection h with h'
      subst h'
      simp only [updateFirstShell, if_pos hs, findShellList]
    · simp only [findShellList, if_neg hs] at h
      simp only [updateFirstShell, if_neg hs, findShellList]
      exact ih shell h

lemma FindShell_setCommand (self : Shell_Self) (sid : String)
    (c : Option CommandData) (shell : ShellData)
    (h : FindShell self sid = some shell) :
    FindShell (setCommand self sid c) sid
      = some { shell with command := c } :=
  findShellList_update_eq sid c self.shellList shell h

lemma markEndOfStream_some (sent : String) :
    ∀ (n : Nat) (streams : List StreamData), n ≤ streams.length →
      ∃ st, markEndOfStream sent n streams = some st := by
  intro n
  induction n with
  | zero => intro streams _; exact ⟨streams, rfl⟩
  | succ n ih =>
    intro streams hlen
    cases streams with
    | nil => simp at hlen
    | cons s rest =>
      by_cases hs : sent ≠ s.streamName
      · exact ⟨{ s with done := true } :: rest, by simp [markEndOfStream, hs]⟩
      · obtain ⟨st, hst⟩ := ih rest (by simpa using hlen)
        exact ⟨s :: st, by simp [markEndOfStream, hs, hst]⟩

/-- Claim C3, evaluated at the failing input: a Send with
`endOfStream = true` for stream `"stdout"` on a command whose stream
table is `stdout, stderr` (both not done) marks `stderr` — the first
entry whose name DIFFERS from the sent name — instead of `stdout`,
because the `Tcscmp` result is used as a truth value without comparing
it to 0. -/
theorem send_end_of_stream_marks_nonmatching :
    Shell_Invoke_Send noB64 noDecomp
      ⟨[⟨"s", some ⟨"c", [⟨"stdout", false⟩, ⟨"stderr", false⟩], none⟩,
        ["stdout", "stderr"], false⟩]⟩
      "s" (some "c") "stdout" none true
      = some ⟨.ok,
          ⟨[⟨"s", some ⟨"c", [⟨"stdout", false⟩, ⟨"stderr", true⟩], none⟩,
            ["stdout", "stderr"], false⟩]⟩, [], none, []⟩ := by
  decide

/-- Claim C4, evaluated at the failing input: Signal with a mismatched
commandId (`"x"` against attached command `"c"`) returns NotFound but
still frees the attached command — the `error:` label unconditionally
runs `free(thisShell->command); thisShell->command = NULL;` — so session
state IS mutated. -/
theorem signal_mismatched_command_frees_state :
    Shell_Invoke_Signal
      ⟨[⟨"s", some ⟨"c", [⟨"stdout", false⟩], none⟩, ["stdout"], false⟩]⟩
      "s" (some "x")
      = some ⟨.notFound, ⟨[⟨"s", none, ["stdout"], false⟩]⟩, [], none⟩ ∧
    (⟨[⟨"s", none, ["stdout"], false⟩]⟩ : Shell_Self)
      ≠ ⟨[⟨"s", some ⟨"c", [⟨"stdout", false⟩], none⟩, ["stdout"], false⟩]⟩ := by
  decide

/-- Counterexample to Claim C5 as stated: flushing the pending receive
of a command whose primary stream is not done claims the slot but does
NOT mark the stream done — the claim predicts the flushed command
`{done := true, receiveContext := none}`, the code leaves
`done := false` (it only reads the flag to decide whether to attach the
terminal stream). -/
theorem signal_does_not_mark_primary_done :
    ((signalFlushReceive (some "c")
        ⟨"c", [⟨"stdout", false⟩], some 5⟩).map (fun p => p.1))
      ≠ some ⟨"c", [⟨"stdout", true⟩], none⟩ := by
  decide

/-- Claim C5 (amended): for every Signal call that resolves its shell and
command (explicit matching commandId, or absent commandId for broadcast)
on a command with at least one declared stream: if a Receive is pending,
Signal claims the `receiveContext` slot and delivers on it a final
receive-result with command state Done, including the primary stream's
terminal chunk exactly when that stream was not yet flagged done (the
done flag itself is only read, not written); and in all cases — even
with no pending Receive — Signal detaches and frees the CommandSession
from the shell and reports Ok. -/
theorem signal_flushes_pending_receive (self : Shell_Self) (sid : String)
    (commandId : Option String) (shell : ShellData) (cmd : CommandData)
    (s0 : StreamData) (rest : List StreamData)
    (hfind : FindShell self sid = some shell)
    (hcmd : shell.command = some cmd)
    (hmatch : ∀ c, commandId = some c → c = cmd.commandId)
    (hstreams : cmd.outboundStreams = s0 :: rest) :
    Shell_Invoke_Signal self sid commandId =
      some ⟨.ok, setCommand self sid none,
        (match cmd.receiveContext with
         | none => []
         | some r => [(r, .ok)]),
        (match cmd.receiveContext with
         | none => none
         | some r => some ⟨r, commandStateDone,
             if s0.done then none else some s0.streamName,
             if s0.done then none else commandId,
             none, .ok⟩)⟩ := by
  cases hcid : commandId with
  | none =>
    cases hrc : cmd.receiveContext with
    | none =>
      simp only [Shell_Invoke_Signal, hfind, hcmd, signalFlushReceive, hrc]
    | some r =>
      simp only [Shell_Invoke_Signal, hfind, hcmd, signalFlushReceive, hrc,
        hstreams]
  | some c =>
    have hc : c = cmd.commandId := hmatch c hcid
    subst hc
    cases hrc : cmd.receiveContext with
    | none =>
      simp only [Shell_Invoke_Signal, hfind, hcmd, signalFlushReceive, hrc]
      simp
    | some r =>
      simp only [Shell_Invoke_Signal, hfind, hcmd, signalFlushReceive, hrc,
        hstreams]
      simp

/-- Witness for C5 at a concrete one-shell state with a pending Receive
(context 9), a broadcast Signal, and a not-yet-done primary stream. -/
theorem signal_flushes_pending_receive_witness :
    FindShell ⟨[⟨"s", some ⟨"c", [⟨"stdout", false⟩], some 9⟩, ["stdout"],
        false⟩]⟩ "s"
      = some ⟨"s", some ⟨"c", [⟨"stdout", false⟩], some 9⟩, ["stdout"],
        false⟩ ∧
    Shell_Invoke_Signal ⟨[⟨"s", some ⟨"c", [⟨"stdout", false⟩], some 9⟩,
        ["stdout"], false⟩]⟩ "s" none
      = some ⟨.ok, setCommand ⟨[⟨"s", some ⟨"c", [⟨"stdout", false⟩],
          some 9⟩, ["stdout"], false⟩]⟩ "s" none,
          [(9, .ok)], some ⟨9, commandStateDone, some "stdout", none, none,
          .ok⟩⟩ :=
  ⟨by decide,
    signal_flushes_pending_receive
      ⟨[⟨"s", some ⟨"c", [⟨"stdout", false⟩], some 9⟩, ["stdout"], false⟩]⟩
      "s" none
      ⟨"s", some ⟨"c", [⟨"stdout", false⟩], some 9⟩, ["stdout"], false⟩
      ⟨"c", [⟨"stdout", false⟩], some 9⟩ ⟨"stdout", false⟩ []
      (by decide) rfl (by intro c hc; cases hc) rfl⟩

/-- Claim C6: at most one Receive may be outstanding per command — a
Receive on a command whose `receiveContext` slot is already occupied
returns AlreadyExists and leaves the whole session state (in particular
the installed reply channel) untouched. -/
theorem second_receive_already_exists (self : Shell_Self) (sid : String)
    (ctx t : Nat) (shell : ShellData) (cmd : CommandData)
    (hfind : FindShell self sid = some shell)
    (hcmd : shell.command = some cmd)
    (hrc : cmd.receiveContext = some t) :
    Shell_Invoke_Receive self sid (some cmd.commandId) ctx =
      some ⟨some .alreadyExists, self, false⟩ := by
  simp only [Shell_Invoke_Receive, hfind, hcmd, hrc]
  simp

/-- Witness for C6 at a concrete state with pending receive context 7. -/
theorem second_receive_already_exists_witness :
    FindShell ⟨[⟨"s", some ⟨"c", [⟨"stdout", false⟩], some 7⟩, ["stdout"],
        false⟩]⟩ "s"
      = some ⟨"s", some ⟨"c", [⟨"stdout", false⟩], some 7⟩, ["stdout"],
        false⟩ ∧
    Shell_Invoke_Receive ⟨[⟨"s", some ⟨"c", [⟨"stdout", false⟩], some 7⟩,
        ["stdout"], false⟩]⟩ "s" (some "c") 42
      = some ⟨some .alreadyExists,
          ⟨[⟨"s", some ⟨"c", [⟨"stdout", false⟩], some 7⟩, ["stdout"],
            false⟩]⟩, false⟩ :=
  ⟨by decide,
    second_receive_already_exists
      ⟨[⟨"s", some ⟨"c", [⟨"stdout", false⟩], some 7⟩, ["stdout"], false⟩]⟩
      "s" 42 7
      ⟨"s", some ⟨"c", [⟨"stdout", false⟩], some 7⟩, ["stdout"], false⟩
      ⟨"c", [⟨"stdout", false⟩], some 7⟩
      (by decide) rfl rfl⟩

/-- Claim C7: every shell has at most one attached command.  Invoking a
command on a shell that already has one returns AlreadyExists and
attaches nothing — afterwards the shell's command slot holds no command
created by this call (it is empty or the old command; on this code path
it is in fact empty, because the `error:` block frees the existing
command).  After a Signal that frees the command, a subsequent
InvokeCommand on the same shell succeeds: it attaches a fresh
CommandSession (one not-done stream entry per declared outbound stream,
with the invoke context stored in `receiveContext`) and leaves the call
pending for the asynchronous plugin callback. -/
theorem single_command_invariant (self : Shell_Self) (sid : String)
    (ctx : Nat) (newId : String) (ctx2 : Nat) (newId2 : String)
    (shell : ShellData) (cmd : CommandData)
    (hfind : FindShell self sid = some shell)
    (hcmd : shell.command = some cmd) :
    (Shell_Invoke_Command self sid ctx newId
        = some (some .alreadyExists, setCommand self sid none) ∧
      ((FindShell (setCommand self sid none) sid).bind ShellData.command
          = none ∨
        (FindShell (setCommand self sid none) sid).bind ShellData.command
          = shell.command)) ∧
    (∀ sig : SignalOutcome,
      Shell_Invoke_Signal self sid (some cmd.commandId) = some sig →
      Shell_Invoke_Command sig.self sid ctx2 newId2 =
        some (none, setCommand sig.self sid
          (some ⟨newId2,
            shell.outboundStreamNames.map (fun n => ⟨n, false⟩),
            some ctx2⟩))) := by
  constructor
  · constructor
    · simp only [Shell_Invoke_Command, hfind, hcmd]
    · left
      rw [FindShell_setCommand self sid none shell hfind]
      rfl
  · intro sig hsig
    have hself : sig.self = setCommand self sid none := by
      simp only [Shell_Invoke_Signal, hfind, hcmd, if_true] at hsig
      cases hfl : signalFlushReceive (some cmd.commandId) cmd with
      | none => rw [hfl] at hsig; cases hsig
      | some triple =>
        obtain ⟨c1, posts1, reply1⟩ := triple
        rw [hfl] at hsig
        cases hsig
        rfl
    have hfind2 : FindShell sig.self sid
        = some { shell with command := none } := by
      rw [hself]
      exact FindShell_setCommand self sid none shell hfind
    rw [Shell_Invoke_Command]
    rw [hfind2]

/-- Witness for C7 at a concrete one-shell state with attached command
`"c"`: the second invoke fails with AlreadyExists, and after the Signal
(which evaluates concretely) a new invoke with id `"c2"` attaches. -/
theorem single_command_invariant_witness :
    FindShell ⟨[⟨"s", some ⟨"c", [⟨"stdout", false⟩], none⟩, ["stdout"],
        false⟩]⟩ "s"
      = some ⟨"s", some ⟨"c", [⟨"stdout", false⟩], none⟩, ["stdout"],
        false⟩ ∧
    ((Shell_Invoke_Command ⟨[⟨"s", some ⟨"c", [⟨"stdout", false⟩], none⟩,
          ["stdout"], false⟩]⟩ "s" 1 "c1"
        = some (some .alreadyExists,
            setCommand ⟨[⟨"s", some ⟨"c", [⟨"stdout", false⟩], none⟩,
              ["stdout"], false⟩]⟩ "s" none) ∧
      ((FindShell (setCommand ⟨[⟨"s", some ⟨"c", [⟨"stdout", false⟩],
            none⟩, ["stdout"], false⟩]⟩ "s" none) "s").bind
          ShellData.command = none ∨
        (FindShell (setCommand ⟨[⟨"s", some ⟨"c", [⟨"stdout", false⟩],
            none⟩, ["stdout"], false⟩]⟩ "s" none) "s").bind
          ShellData.command
          = (⟨"s", some ⟨"c", [⟨"stdout", false⟩], none⟩, ["stdout"],
            false⟩ : ShellData).command)) ∧
    (∀ sig : SignalOutcome,
      Shell_Invoke_Signal ⟨[⟨"s", some ⟨"c", [⟨"stdout", false⟩], none⟩,
          ["stdout"], false⟩]⟩ "s" (some "c") = some sig →
      Shell_Invoke_Command sig.self "s" 2 "c2" =
        some (none, setCommand sig.self "s"
          (some ⟨"c2", [⟨"stdout", false⟩], some 2⟩)))) :=
  ⟨by decide,
    single_command_invariant
      ⟨[⟨"s", some ⟨"c", [⟨"stdout", false⟩], none⟩, ["stdout"], false⟩]⟩
      "s" 1 "c1" 2 "c2"
      ⟨"s", some ⟨"c", [⟨"stdout", false⟩], none⟩, ["stdout"], false⟩
      ⟨"c", [⟨"stdout", false⟩], none⟩
      (by decide) rfl⟩

/-- Claim C9: a Send that resolves its shell and command and whose codec
stages succeed still completes with Ok when no Receive is pending
(`receiveContext = none`), and no receive-reply is delivered on any
reply channel during the call — the receive-result is only ever handed
to a claimed pending Receive.  The length hypothesis is the data-model
invariant that the command was built with one stream entry per declared
outbound stream (without it the C indexes past the stream array). -/
theorem send_without_pending_receive_ok
    (b64dec : List Nat → Option (List Nat))
    (decomp : List Nat → Nat → Option (List Nat)) (self : Shell_Self)
    (sid : String) (sn : String) (data : Option (List Nat)) (eos : Bool)
    (shell : ShellData) (cmd : CommandData)
    (hfind : FindShell self sid = some shell)
    (hcmd : shell.command = some cmd)
    (hrc : cmd.receiveContext = none)
    (hlen : shell.outboundStreamNames.length ≤ cmd.outboundStreams.length)
    (hcodec : data = none ∨ ∃ d db, data = some d ∧
      sendDecode b64dec decomp shell.isCompressed d = .ok db) :
    ∃ o : SendOutcome,
      Shell_Invoke_Send b64dec decomp self sid (some cmd.commandId) sn data
        eos = some o ∧
      o.result = .ok ∧ o.receiveReply = none ∧ o.receivePosts = [] := by
  obtain ⟨st, hst⟩ : ∃ st, (if eos then markEndOfStream sn
      shell.outboundStreamNames.length cmd.outboundStreams
    else some cmd.outboundStreams) = some st := by
    cases eos with
    | false => exact ⟨cmd.outboundStreams, by simp⟩
    | true =>
      obtain ⟨st, hst⟩ := markEndOfStream_some sn
        shell.outboundStreamNames.length cmd.outboundStreams hlen
      exact ⟨st, by simpa using hst⟩
  rcases hcodec with hnone | ⟨d, db, hd, hdec⟩
  · subst hnone
    refine ⟨⟨.ok, setCommand self sid
      (some { cmd with receiveContext := none, outboundStreams := st }),
      [], none, []⟩, ?_, rfl, rfl, rfl⟩
    simp only [Shell_Invoke_Send, hfind, hcmd, if_true, hst, hrc]
    rfl
  · subst hd
    refine ⟨⟨.ok, setCommand self sid
      (some { cmd with receiveContext := none, outboundStreams := st }),
      [], none, [(sn, db.buffer)]⟩, ?_, rfl, rfl, rfl⟩
    simp only [Shell_Invoke_Send, hfind, hcmd, if_true, hst, hrc, hdec]
    rfl

/-- Witness for C9 at a concrete one-shell state with no pending Receive
and no data payload. -/
theorem send_without_pending_receive_ok_witness :
    FindShell ⟨[⟨"s", some ⟨"c", [⟨"stdout", false⟩], none⟩, ["stdout"],
        false⟩]⟩ "s"
      = some ⟨"s", some ⟨"c", [⟨"stdout", false⟩], none⟩, ["stdout"],
        false⟩ ∧
    (∃ o : SendOutcome,
      Shell_Invoke_Send noB64 noDecomp
        ⟨[⟨"s", some ⟨"c", [⟨"stdout", false⟩], none⟩, ["stdout"], false⟩]⟩
        "s" (some "c") "stdout" none false = some o ∧
      o.result = .ok ∧ o.receiveReply = none ∧ o.receivePosts = []) :=
  ⟨by decide,
    send_without_pending_receive_ok noB64 noDecomp
      ⟨[⟨"s", some ⟨"c", [⟨"stdout", false⟩], none⟩, ["stdout"], false⟩]⟩
      "s" "stdout" none false
      ⟨"s", some ⟨"c", [⟨"stdout", false⟩], none⟩, ["stdout"], false⟩
      ⟨"c", [⟨"stdout", false⟩], none⟩
      (by decide) rfl rfl (by decide) (Or.inl rfl)⟩

/-- Counterexample to Claim C10 as stated: a Send whose stream data
carries no commandId but whose shellId is unknown returns NotFound, not
NotSupported — the shell lookup happens before the commandId check. -/
theorem send_no_commandid_unknown_shell :
    (Shell_Invoke_Send noB64 noDecomp ⟨[]⟩ "s" none "x" none false).map
        (fun o => o.result) = some .notFound ∧
      MIResult.notFound ≠ .notSupported := by
  decide

/-- Claim C10 (amended): for every Send call that resolves its shell and
whose stream data carries no commandId (shell-level send), the call
returns NotSupported before any decoding, forwarding, or state mutation
occurs — the state is unchanged, nothing is forwarded to the backend,
and no receive event is produced, whatever data the call carried. -/
theorem shell_level_send_not_supported
    (b64dec : List Nat → Option (List Nat))
    (decomp : List Nat → Nat → Option (List Nat)) (self : Shell_Self)
    (sid : String) (sn : String) (data : Option (List Nat)) (eos : Bool)
    (shell : ShellData)
    (hfind : FindShell self sid = some shell) :
    Shell_Invoke_Send b64dec decomp self sid none sn data eos =
      some ⟨.notSupported, self, [], none, []⟩ := by
  simp only [Shell_Invoke_Send, hfind]

/-- Witness for the amended C10, with a data payload present to show the
codec is never consulted. -/
theorem shell_level_send_not_supported_witness :
    FindShell ⟨[⟨"s", some ⟨"c", [⟨"stdout", false⟩], none⟩, ["stdout"],
        false⟩]⟩ "s"
      = some ⟨"s", some ⟨"c", [⟨"stdout", false⟩], none⟩, ["stdout"],
        false⟩ ∧
    Shell_Invoke_Send noB64 noDecomp
      ⟨[⟨"s", some ⟨"c", [⟨"stdout", false⟩], none⟩, ["stdout"], false⟩]⟩
      "s" none "stdout" (some [1, 2, 3]) true
      = some ⟨.notSupported,
          ⟨[⟨"s", some ⟨"c", [⟨"stdout", false⟩], none⟩, ["stdout"],
            false⟩]⟩, [], none, []⟩ :=
  ⟨by decide,
    shell_level_send_not_supported noB64 noDecomp
      ⟨[⟨"s", some ⟨"c", [⟨"stdout", false⟩], none⟩, ["stdout"], false⟩]⟩
      "s" "stdout" (some [1, 2, 3]) true
      ⟨"s", some ⟨"c", [⟨"stdout", false⟩], none⟩, ["stdout"], false⟩
      (by decide)⟩
